import Mathlib

/-!
Verification development for the `observable_properties` library
(file `src/observable_properties.py`).

The library lets a class declare attributes as observable via the
`observable` descriptor (a `property` subclass).  On assignment,
`observable.__set__` iterates the subscriber list stored as a class
attribute `__<name>_subscribers`, invoking each callback with
`(instance, property_name, new_value)` while a recursion-guard list
`__<name>_recursions` (also a class attribute) rejects re-entrant
notification; the guard is cleared in a `finally` block and only then
is the new value committed through `property.__set__` (which runs the
user-supplied setter, `self._value = value` in every class of this
repository).  Free functions `subscribe` / `unsubscribe` edit the
subscriber list and raise `ObservablePropertyError` when the attribute
has no `__<name>_subscribers` class attribute, and the `Observable`
mix-in exposes instance-scoped wrappers.

The shallow embedding below represents the owning class's mutable
class attributes (`__P_subscribers`, `__P_recursions`) as association
lists keyed by property name, and per-instance storage as an
association list keyed by (instance id, property name).  Callbacks are
identified values (Python compares them by object identity for the
`in` membership tests); their observable behaviour is restricted to
the shapes exercised by the repository's tests: recording the
notification, or re-entrantly assigning to the observed attribute
(`invalid_observer` in the tests assigns `value + delta`).  Running a
callback is recorded as an `Event` carrying the notification arguments
together with the value a `getattr` read of the attribute would return
at that moment, which is how the tests' before-observers inspect the
old value.

The repository's test-suite and example (`tests.py`, `example.py`)
additionally exercise a phase-aware API — `subscribe(..., before=...)`
and `Observable._observable_notify` — whose implementation is not part
of the library file in this tree; a second model of that phase-aware
write/notify path, built from the specification's words, appears
further below and is marked as such.
-/

namespace ObservableProperties

/-- Behaviour of a callback when invoked, covering the callback shapes in
the repository: record the notification, or re-entrantly assign
`value + delta` to the attribute being observed (the tests'
`invalid_observer`). -/
inductive CbBeh where
  | record : CbBeh
  | assignSame (delta : Int) : CbBeh
deriving DecidableEq, Repr

/-- A callback object: Python compares callbacks by identity in the
`in` tests of `__set__`, `subscribe` and `unsubscribe`; `id` stands for
that identity and `name` for `__name__` (used in error messages). -/
structure Callback where
  id : Nat
  name : String
  beh : CbBeh
deriving DecidableEq, Repr

/-- One callback invocation: the arguments
`(instance, property_name, value)` passed by `__set__`, together with
`observed`, the value a read of the attribute returned at the moment
of the call (what a before-observer sees via `getattr`). -/
structure Event where
  cb : Callback
  inst : Nat
  prop : String
  arg : Int
  observed : Int
deriving DecidableEq, Repr

/-- Exceptions that can escape the embedded operations.
`observablePropertyError` is the library's single exception class
`ObservablePropertyError`; `attributeError` stands for Python's
`AttributeError` (reading a class attribute that does not exist);
`recursionError` stands for Python's `RecursionError` and is the
fuel-exhaustion result of the embedding. -/
inductive PyErr where
  | observablePropertyError (msg : String) : PyErr
  | attributeError : PyErr
  | recursionError : PyErr
deriving DecidableEq, Repr

/-- Message of the `ObservablePropertyError` raised by
`observable.__set__`: names the callback, the owning class and the
property (quoting of the f-string omitted). -/
def mutationMsg (cbName clsName propName : String) : String :=
  cbName ++ " is not allowed to modify observable property " ++ clsName ++ "." ++ propName

/-- Message of the `ObservablePropertyError` raised by `subscribe` and
`unsubscribe` for a non-observable property name. -/
def notObservableMsg (propName clsName : String) : String :=
  propName ++ " is not an observable property of " ++ clsName

/-- Association-list read, embedding `getattr(owner, key)` for the
class attributes that hold subscriber/recursion lists. -/
def alGet {α : Type} : List (String × α) → String → Option α
  | [], _ => none
  | (k, v) :: t, key => if k = key then some v else alGet t key

/-- Association-list overwrite of an existing key, embedding in-place
mutation of the list object stored under a class attribute. -/
def alPut {α : Type} : List (String × α) → String → α → List (String × α)
  | [], _, _ => []
  | (k, w) :: t, key, v => if k = key then (key, v) :: alPut t key v else (k, w) :: alPut t key v

/-- Per-instance attribute storage: (instance id, property name) to
value, written by the user-supplied setter `self._value = value`. -/
abbrev Store := List ((Nat × String) × Int)

/-- Read of the underlying storage (the user-supplied getter
`return self._value`); `0` is the value set by `__init__` in every
class of the repository. -/
def storeGet : Store → Nat → String → Int
  | [], _, _ => 0
  | (k, v) :: t, inst, propName => if k = (inst, propName) then v else storeGet t inst propName

/-- State of one owning class and its instances: the class name (used
in error messages), the `__P_subscribers` and `__P_recursions` class
attributes created by `observable.__set_name__`, and the per-instance
storage behind the user-supplied getters/setters. -/
structure SysState where
  clsName : String
  registry : List (String × List Callback)
  guards : List (String × List Callback)
  store : Store
deriving DecidableEq, Repr

/-- Embeds `observable.__set_name__(owner, name)`: creates empty
`__<name>_subscribers` and `__<name>_recursions` class attributes if
absent. -/
def declareObservable (st : SysState) (propName : String) : SysState :=
  let st1 := match alGet st.registry propName with
    | some _ => st
    | none => { st with registry := st.registry ++ [(propName, [])] }
  match alGet st1.guards propName with
  | some _ => st1
  | none => { st1 with guards := st1.guards ++ [(propName, [])] }

/-- Overwrite the recursion-guard list of one property (in-place list
mutation of the shared class attribute). -/
def setGuard (st : SysState) (propName : String) (g : List Callback) : SysState :=
  { st with guards := alPut st.guards propName g }

/-- Embeds `recursions.clear()` on the shared guard list. -/
def clearGuard (st : SysState) (propName : String) : SysState :=
  setGuard st propName []

/-- Embeds `property.__set__`, i.e. the user-supplied setter
`self._value = value`: commits the new value to the instance's
storage. -/
def commit (st : SysState) (inst : Nat) (propName : String) (v : Int) : SysState :=
  { st with store := ((inst, propName), v) :: st.store }

/-- Read of the attribute through the getter; never notifies. -/
def readProp (st : SysState) (inst : Nat) (propName : String) : Int :=
  storeGet st.store inst propName

/-- Result of a write: Python exceptions carry no state, but the class
attributes and storage mutated before the raise survive it, so the
embedding returns the final state on both paths, together with the
trace of callback invocations. -/
inductive WResult where
  | ok (st : SysState) (evs : List Event) : WResult
  | err (st : SysState) (evs : List Event) (e : PyErr) : WResult
deriving DecidableEq, Repr

/-- Final state of a write result. -/
def WResult.state : WResult → SysState
  | .ok st _ => st
  | .err st _ _ => st

/-- Trace of a write result. -/
def WResult.events : WResult → List Event
  | .ok _ evs => evs
  | .err _ evs _ => evs

/-- Error of a write result, if any. -/
def WResult.errOf : WResult → Option PyErr
  | .ok _ _ => none
  | .err _ _ e => some e

/-- The `for observer in subscribers` loop of `observable.__set__`:
for each observer, if it is already in the (live, shared) recursion
list the loop raises `ObservablePropertyError`; otherwise the observer
is appended to the recursion list and invoked with
`(instance, property_name, value)`.  `nested` is the effect of an
assignment performed from inside a callback (a re-entrant
`observable.__set__` on the same attribute); it is a parameter so that
the identical loop is reused by the phase-aware model below.  The
guard is re-read from the state at every step, matching Python's
membership test against the live list object. -/
def runLoop (nested : SysState → Int → WResult) (inst : Nat) (propName : String) (v : Int) :
    SysState → List Callback → WResult
  | st, [] => .ok st []
  | st, cb :: rest =>
    let g := (alGet st.guards propName).getD []
    if cb ∈ g then
      .err st [] (.observablePropertyError (mutationMsg cb.name st.clsName propName))
    else
      let st1 := setGuard st propName (g ++ [cb])
      let ev : Event := ⟨cb, inst, propName, v, readProp st1 inst propName⟩
      match cb.beh with
      | .record =>
        match runLoop nested inst propName v st1 rest with
        | .ok st2 evs => .ok st2 (ev :: evs)
        | .err st2 evs e => .err st2 (ev :: evs) e
      | .assignSame d =>
        match nested st1 (v + d) with
        | .ok st2 evs2 =>
          match runLoop nested inst propName v st2 rest with
          | .ok st3 evs3 => .ok st3 (ev :: (evs2 ++ evs3))
          | .err st3 evs3 e => .err st3 (ev :: (evs2 ++ evs3)) e
        | .err st2 evs2 e => .err st2 (ev :: evs2) e

/-- Embeds `observable.__set__(instance, value)`: reads the subscriber and
recursion class attributes, runs the subscriber loop inside
`try/finally recursions.clear()`, and only after a clean pass commits
the value through `property.__set__`.  `fuel` bounds re-entrant
nesting (exhaustion is Python's `RecursionError`). -/
def observableSet : Nat → SysState → Nat → String → Int → WResult
  | 0, st, _, _, _ => .err st [] .recursionError
  | fuel + 1, st, inst, propName, v =>
    match alGet st.registry propName, alGet st.guards propName with
    | some subs, some _ =>
      match runLoop (fun s w => observableSet fuel s inst propName w) inst propName v st subs with
      | .ok st1 evs => .ok (commit (clearGuard st1 propName) inst propName v) evs
      | .err st1 evs e => .err (clearGuard st1 propName) evs e
    | _, _ => .err st [] .attributeError

/-- Free function `subscribe(callback, instance, property_name)`:
appends the callback to the `__<name>_subscribers` list if not already
present; raises `ObservablePropertyError` when the attribute lookup
fails (the property is not observable).  The lookup
`getattr(instance, "__<name>_subscribers")` resolves to the class
attribute installed by `__set_name__`, because no instance attribute
of that name is ever created — hence the registry is keyed by
property name only and shared by all instances; the `instance`
argument serves only to locate the class. -/
def subscribe (cb : Callback) (st : SysState) (inst : Nat) (propName : String) :
    Except PyErr SysState :=
  match alGet st.registry propName with
  | some subs =>
    if cb ∈ subs then .ok st
    else .ok { st with registry := alPut st.registry propName (subs ++ [cb]) }
  | none => .error (.observablePropertyError (notObservableMsg propName st.clsName))

/-- Free function `unsubscribe(callback, instance, property_name)`:
removes the callback if present, returning whether a removal occurred;
raises `ObservablePropertyError` when the property is not
observable. -/
def unsubscribe (cb : Callback) (st : SysState) (inst : Nat) (propName : String) :
    Except PyErr (SysState × Bool) :=
  match alGet st.registry propName with
  | some subs =>
    if cb ∈ subs then
      .ok ({ st with registry := alPut st.registry propName (subs.erase cb) }, true)
    else .ok (st, false)
  | none => .error (.observablePropertyError (notObservableMsg propName st.clsName))

/-- Embeds `Observable.subscribe(property_name)` applied to a function: the
decorator wraps the one-argument function into a three-argument
callback (`@wraps` keeps its name) and delegates to the free function
`subscribe` bound to `self`; the wrapper only adapts the arity, which
the embedding represents by subscribing the callback itself.  Returns
the registered callback as the decorator does. -/
def observableSubscribe (st : SysState) (selfInst : Nat) (propName : String) (func : Callback) :
    Except PyErr (SysState × Callback) :=
  match subscribe func st selfInst propName with
  | .ok st1 => .ok (st1, func)
  | .error e => .error e

/-- Embeds `Observable.unsubscribe(property_name, callback)`: delegates to the
free function `unsubscribe` bound to `self`.  (The method returns the
boolean; the source discards no information.) -/
def observableUnsubscribe (st : SysState) (selfInst : Nat) (propName : String) (cb : Callback) :
    Except PyErr (SysState × Bool) :=
  unsubscribe cb st selfInst propName

/-!
## Phase-aware model

Modelled from the spec: the phase-aware write and manual-notify path.
The library file in this tree is an older revision without phases; the
repository's own tests and example call
`subscribe(callback, instance, name, before=True)`,
`Observable.subscribe(name, callback, before)` and
`Observable._observable_notify(name, value, before)`, so the
implementation deciding the phase claims is repository code missing
from the tree.  Following the spec: an observable attribute keeps two
ordered callback sequences, `before` and `after`; Write runs all
`before` callbacks with `(instance, attributeName, newValue)` in
subscription order, commits the value, runs all `after` callbacks with
the same arguments, and clears the recursion guard on every exit path;
the guard spans the dynamic extent of one write, so a nested
(re-entrant) write sees the guard entries of the enclosing one; manual
notify runs the same callback-running logic for the chosen phase
without touching storage.
-/

/-- Modelled from the spec: class-level state of the phase-aware
revision — the class name, the `before`-phase and `after`-phase
subscriber sequences per observable attribute, the recursion guard,
and per-instance storage. -/
structure PState where
  clsName : String
  registryB : List (String × List Callback)
  registryA : List (String × List Callback)
  guards : List (String × List Callback)
  store : Store
deriving DecidableEq, Repr

/-- Result of a phase-aware write or notify (state survives the
raise, as in `WResult`). -/
inductive PResult where
  | ok (st : PState) (evs : List Event) : PResult
  | err (st : PState) (evs : List Event) (e : PyErr) : PResult
deriving DecidableEq, Repr

/-- Final state of a phase-aware result. -/
def PResult.state : PResult → PState
  | .ok st _ => st
  | .err st _ _ => st

/-- Trace of a phase-aware result. -/
def PResult.events : PResult → List Event
  | .ok _ evs => evs
  | .err _ evs _ => evs

/-- Error of a phase-aware result, if any. -/
def PResult.errOf : PResult → Option PyErr
  | .ok _ _ => none
  | .err _ _ e => some e

/-- Overwrite the recursion-guard list of one property. -/
def psetGuard (st : PState) (propName : String) (g : List Callback) : PState :=
  { st with guards := alPut st.guards propName g }

/-- Clear the recursion-guard list of one property. -/
def pclearGuard (st : PState) (propName : String) : PState :=
  psetGuard st propName []

/-- Commit a value to an instance's storage. -/
def pcommit (st : PState) (inst : Nat) (propName : String) (v : Int) : PState :=
  { st with store := ((inst, propName), v) :: st.store }

/-- Read of the attribute; never notifies. -/
def preadProp (st : PState) (inst : Nat) (propName : String) : Int :=
  storeGet st.store inst propName

/-- Modelled from the spec: the callback-running logic shared by the
phase-aware Write and the manual notify — one pass over a callback
sequence, identical to the source's `runLoop`: a callback already in
the guard raises `ObservablePropertyError`; otherwise it is appended
to the guard and invoked; `nested` is the effect of a re-entrant
assignment performed from inside a callback. -/
def ploop (nested : PState → Int → PResult) (inst : Nat) (propName : String) (v : Int) :
    PState → List Callback → PResult
  | st, [] => .ok st []
  | st, cb :: rest =>
    let g := (alGet st.guards propName).getD []
    if cb ∈ g then
      .err st [] (.observablePropertyError (mutationMsg cb.name st.clsName propName))
    else
      let st1 := psetGuard st propName (g ++ [cb])
      let ev : Event := ⟨cb, inst, propName, v, preadProp st1 inst propName⟩
      match cb.beh with
      | .record =>
        match ploop nested inst propName v st1 rest with
        | .ok st2 evs => .ok st2 (ev :: evs)
        | .err st2 evs e => .err st2 (ev :: evs) e
      | .assignSame d =>
        match nested st1 (v + d) with
        | .ok st2 evs2 =>
          match ploop nested inst propName v st2 rest with
          | .ok st3 evs3 => .ok st3 (ev :: (evs2 ++ evs3))
          | .err st3 evs3 e => .err st3 (ev :: (evs2 ++ evs3)) e
        | .err st2 evs2 e => .err st2 (ev :: evs2) e

/-- Modelled from the spec: Write of the phase-aware revision — run
all `before` callbacks in subscription order, commit the new value to
the instance's storage, run all `after` callbacks with the same
arguments, clearing the recursion guard on every exit path.  A
re-entrant assignment made by a callback runs this same Write with one
unit less fuel (exhaustion is Python's `RecursionError`). -/
def pwrite : Nat → PState → Nat → String → Int → PResult
  | 0, st, _, _, _ => .err st [] .recursionError
  | fuel + 1, st, inst, propName, v =>
    match alGet st.registryB propName, alGet st.registryA propName, alGet st.guards propName with
    | some beforeSubs, some afterSubs, some _ =>
      match ploop (fun s w => pwrite fuel s inst propName w) inst propName v st beforeSubs with
      | .err st1 evs e => .err (pclearGuard st1 propName) evs e
      | .ok st1 evs1 =>
        let st2 := pcommit st1 inst propName v
        match ploop (fun s w => pwrite fuel s inst propName w) inst propName v st2 afterSubs with
        | .ok st3 evs2 => .ok (pclearGuard st3 propName) (evs1 ++ evs2)
        | .err st3 evs2 e => .err (pclearGuard st3 propName) (evs1 ++ evs2) e
    | _, _, _ => .err st [] .attributeError

/-- Modelled from the spec: `Observable._observable_notify(name, value,
before)` — the manual-notify entry point; runs the same
callback-running logic (`ploop`) as `pwrite` for the chosen phase,
without touching storage, clearing the guard on every exit path;
raises `ObservablePropertyError` for a non-observable name. -/
def pnotify (fuel : Nat) (st : PState) (selfInst : Nat) (propName : String) (v : Int)
    (before : Bool) : PResult :=
  match (if before then alGet st.registryB propName else alGet st.registryA propName),
      alGet st.guards propName with
  | some subs, some _ =>
    match ploop (fun s w => pwrite fuel s selfInst propName w) selfInst propName v st subs with
    | .ok st1 evs => .ok (pclearGuard st1 propName) evs
    | .err st1 evs e => .err (pclearGuard st1 propName) evs e
  | _, _ => .err st [] (.observablePropertyError (notObservableMsg propName st.clsName))

/-- The test-suite's `Test.indirect(value)` (file `tests/tests.py`):
a mutating method of a type with a computed observable attribute,
which notifies the `after`-phase subscribers of `value` with the
computed new value `value * 2` through the manual path, performing no
assignment to the attribute. -/
def indirect (fuel : Nat) (st : PState) (selfInst : Nat) (value : Int) : PResult :=
  pnotify fuel st selfInst "value" (value * 2) false

/-! ## Association-list lemmas -/

/-- The class holds at most one attribute of each name, so the keys of
the embedded attribute maps are pairwise distinct. -/
def alKeysNodup {α : Type} (l : List (String × α)) : Prop :=
  (l.map Prod.fst).Nodup

theorem alPut_keys {α : Type} (l : List (String × α)) (k : String) (v : α) :
    (alPut l k v).map Prod.fst = l.map Prod.fst := by
  induction l with
  | nil => rfl
  | cons kv t ih =>
    obtain ⟨k', w⟩ := kv
    by_cases hk : k' = k
    · subst hk
      simp [alPut, ih]
    · simp [alPut, hk, ih]

theorem alKeysNodup_alPut {α : Type} {l : List (String × α)} {k : String} {v : α}
    (h : alKeysNodup l) : alKeysNodup (alPut l k v) := by
  unfold alKeysNodup at h ⊢
  rw [alPut_keys]
  exact h

theorem alGet_alPut_self {α : Type} (l : List (String × α)) (k : String) (v : α)
    (h : (alGet l k).isSome) : alGet (alPut l k v) k = some v := by
  induction l with
  | nil => simp [alGet] at h
  | cons kv t ih =>
    obtain ⟨k', w⟩ := kv
    by_cases hk : k' = k
    · subst hk
      simp [alGet, alPut]
    · simp [alGet, alPut, hk] at h ⊢
      exact ih h

theorem alPut_alPut {α : Type} (l : List (String × α)) (k : String) (v w : α) :
    alPut (alPut l k v) k w = alPut l k w := by
  induction l with
  | nil => rfl
  | cons kv t ih =>
    obtain ⟨k', u⟩ := kv
    by_cases hk : k' = k
    · subst hk
      simp [alPut, ih]
    · simp [alPut, hk, ih]

theorem alPut_not_mem {α : Type} {l : List (String × α)} {k : String} (v : α)
    (h : k ∉ l.map Prod.fst) : alPut l k v = l := by
  induction l with
  | nil => rfl
  | cons kv t ih =>
    obtain ⟨k', u⟩ := kv
    simp at h
    have hk : k' ≠ k := fun hc => h.1 hc.symm
    simp [alPut, hk]
    exact ih (by simpa using h.2)

theorem alPut_self_of_nodup {α : Type} {l : List (String × α)} {k : String} {w : α}
    (hnd : alKeysNodup l) (h : alGet l k = some w) : alPut l k w = l := by
  induction l with
  | nil => simp [alGet] at h
  | cons kv t ih =>
    obtain ⟨k', u⟩ := kv
    unfold alKeysNodup at hnd
    simp at hnd
    by_cases hk : k' = k
    · subst hk
      simp [alGet] at h
      subst h
      simp [alPut]
      exact alPut_not_mem _ (by simpa using hnd.1)
    · simp [alGet, hk] at h
      simp [alPut, hk]
      exact ih hnd.2 h

/-! ## Structural lemmas about guard and storage updates (source model) -/

theorem setGuard_setGuard (st : SysState) (p : String) (g g' : List Callback) :
    setGuard (setGuard st p g) p g' = setGuard st p g' := by
  simp [setGuard, alPut_alPut]

theorem setGuard_self {st : SysState} {p : String} {g : List Callback}
    (hnd : alKeysNodup st.guards) (h : alGet st.guards p = some g) :
    setGuard st p g = st := by
  unfold setGuard
  rw [alPut_self_of_nodup hnd h]

theorem alGet_setGuard_self {st : SysState} {p : String} (g : List Callback)
    (h : (alGet st.guards p).isSome) : alGet (setGuard st p g).guards p = some g :=
  alGet_alPut_self _ _ _ h

theorem readProp_setGuard (st : SysState) (p : String) (g : List Callback) (inst : Nat)
    (q : String) : readProp (setGuard st p g) inst q = readProp st inst q := rfl

/-! ## The subscriber loop on record-only callbacks (source model) -/

/-- A pass of `observable.__set__`'s subscriber loop over callbacks
that merely record their notification: every callback is invoked once,
in subscription order, with `(instance, property_name, new_value)`,
each observing the current (pre-commit) stored value; the recursion
guard accumulates the callbacks and nothing else changes. -/
theorem runLoop_records (nested : SysState → Int → WResult) (inst : Nat) (propName : String)
    (v : Int) (subs : List Callback) :
    ∀ (st : SysState) (g : List Callback),
      alKeysNodup st.guards →
      alGet st.guards propName = some g →
      (∀ cb ∈ subs, cb.beh = .record) →
      (∀ cb ∈ subs, cb ∉ g) →
      subs.Nodup →
      runLoop nested inst propName v st subs
        = .ok (setGuard st propName (g ++ subs))
            (subs.map fun cb => ⟨cb, inst, propName, v, readProp st inst propName⟩) := by
  induction subs with
  | nil =>
    intro st g hk hg _ _ _
    simp [runLoop, setGuard_self hk hg]
  | cons cb rest ih =>
    intro st g hk hg hrec hdisj hnd
    have hcb : cb ∉ g := hdisj cb (by simp)
    have hbeh : cb.beh = .record := hrec cb (by simp)
    have hGuardD : (alGet st.guards propName).getD [] = g := by rw [hg]; rfl
    have hih := ih (setGuard st propName (g ++ [cb])) (g ++ [cb])
      (alKeysNodup_alPut hk)
      (alGet_setGuard_self _ (by rw [hg]; rfl))
      (fun c hc => hrec c (by simp [hc]))
      (fun c hc => by
        have h1 : c ∉ g := hdisj c (by simp [hc])
        have h2 : c ≠ cb := fun hceq => (List.nodup_cons.mp hnd).1 (hceq ▸ hc)
        simp [h1, h2])
      (List.nodup_cons.mp hnd).2
    simp only [runLoop, hGuardD, if_neg hcb, hbeh]
    rw [hih]
    simp [setGuard_setGuard, readProp_setGuard]

/-- One-step unfolding of `observable.__set__` at positive fuel. -/
theorem observableSet_succ (fuel : Nat) (st : SysState) (inst : Nat) (propName : String)
    (v : Int) :
    observableSet (fuel + 1) st inst propName v
      = match alGet st.registry propName, alGet st.guards propName with
        | some subs, some _ =>
          match runLoop (fun s w => observableSet fuel s inst propName w) inst propName v st subs with
          | .ok st1 evs => .ok (commit (clearGuard st1 propName) inst propName v) evs
          | .err st1 evs e => .err (clearGuard st1 propName) evs e
        | _, _ => .err st [] .attributeError := rfl

instance {α : Type} (l : List (String × α)) : Decidable (alKeysNodup l) := by
  unfold alKeysNodup
  infer_instance

/-- Running `observable.__set__` on a registry of record-only callbacks:
every subscriber fires once in subscription order, observing the
pre-commit value and receiving the new value, the guard ends empty,
and the new value is committed afterwards. -/
theorem observableSet_records (fuel : Nat) (st : SysState) (inst : Nat) (propName : String)
    (v : Int) (subs : List Callback)
    (hk : alKeysNodup st.guards)
    (hreg : alGet st.registry propName = some subs)
    (hg : alGet st.guards propName = some [])
    (hrec : ∀ cb ∈ subs, cb.beh = .record)
    (hnd : subs.Nodup) :
    observableSet (fuel + 1) st inst propName v
      = .ok (commit (clearGuard st propName) inst propName v)
          (subs.map fun cb => ⟨cb, inst, propName, v, readProp st inst propName⟩) := by
  have hloop := runLoop_records (fun s w => observableSet fuel s inst propName w)
    inst propName v subs st [] hk hg hrec (by simp) hnd
  simp only [observableSet, hreg, hg]
  rw [hloop]
  simp [clearGuard, setGuard_setGuard]

/-- A write whose subscriber list starts with a callback already in
the recursion guard fails at once: the `ObservablePropertyError` names
that first callback, the owning class and the property; the guard is
cleared by the `finally` block, no callback runs, and nothing is
committed. -/
theorem observableSet_headGuarded (fuel : Nat) (st : SysState) (inst : Nat) (propName : String)
    (v : Int) (h : Callback) (t : List Callback) (g : List Callback)
    (hreg : alGet st.registry propName = some (h :: t))
    (hg : alGet st.guards propName = some g)
    (hmem : h ∈ g) :
    observableSet (fuel + 1) st inst propName v
      = .err (clearGuard st propName) []
          (.observablePropertyError (mutationMsg h.name st.clsName propName)) := by
  simp only [observableSet, hreg, hg, runLoop, Option.getD_some]
  rw [if_pos hmem]

/-- The subscriber loop on a prefix of record-only callbacks followed
by a callback that re-entrantly assigns to the observed attribute:
the records fire, the assigner fires and its nested
`observable.__set__` immediately rejects the first subscriber (already
in the guard), raising an `ObservablePropertyError` that names the
first subscriber; the nested `finally` clears the shared guard and
storage is untouched. -/
theorem runLoop_records_then_assign (fuel : Nat) (inst : Nat) (propName : String) (v : Int)
    (c : Callback) (d : Int) (post : List Callback) (h0 : Callback) (full : List Callback)
    (pre : List Callback) :
    ∀ (st : SysState) (g : List Callback),
      alKeysNodup st.guards →
      alGet st.registry propName = some full →
      full.head? = some h0 →
      h0 ∈ g ++ pre ++ [c] →
      alGet st.guards propName = some g →
      (∀ cb ∈ pre, cb.beh = .record) →
      c.beh = .assignSame d →
      (∀ cb ∈ pre ++ [c], cb ∉ g) →
      (pre ++ [c]).Nodup →
      runLoop (fun s w => observableSet (fuel + 1) s inst propName w) inst propName v st
          (pre ++ c :: post)
        = .err (clearGuard st propName)
            ((pre.map fun cb => ⟨cb, inst, propName, v, readProp st inst propName⟩)
              ++ [⟨c, inst, propName, v, readProp st inst propName⟩])
            (.observablePropertyError (mutationMsg h0.name st.clsName propName)) := by
  induction pre with
  | nil =>
    intro st g hk hreg hhead hh0 hg _ hc hdisj _
    have hcg : c ∉ g := hdisj c (by simp)
    have hGuardD : (alGet st.guards propName).getD [] = g := by rw [hg]; rfl
    obtain ⟨t0, hfull⟩ : ∃ t0, full = h0 :: t0 := by
      cases full with
      | nil => simp at hhead
      | cons a t =>
        simp at hhead
        exact ⟨t, by simp [hhead]⟩
    have hnested := observableSet_headGuarded fuel (setGuard st propName (g ++ [c])) inst
      propName (v + d) h0 t0 (g ++ [c])
      (by rw [show (setGuard st propName (g ++ [c])).registry = st.registry from rfl, hreg, hfull])
      (alGet_setGuard_self _ (by rw [hg]; rfl))
      (by simpa using hh0)
    simp only [List.nil_append, runLoop, hGuardD, if_neg hcg, hc]
    rw [hnested]
    simp only [clearGuard, setGuard_setGuard]
    rfl
  | cons x pre' ih =>
    intro st g hk hreg hhead hh0 hg hpre hc hdisj hnd
    have hxg : x ∉ g := hdisj x (by simp)
    have hxbeh : x.beh = .record := hpre x (by simp)
    have hGuardD : (alGet st.guards propName).getD [] = g := by rw [hg]; rfl
    have hih := ih (setGuard st propName (g ++ [x])) (g ++ [x])
      (alKeysNodup_alPut hk)
      (by rw [show (setGuard st propName (g ++ [x])).registry = st.registry from rfl, hreg])
      hhead
      (by
        rcases (by simpa using hh0 : h0 ∈ g ∨ h0 = x ∨ h0 ∈ pre' ∨ h0 = c) with h1 | h1 | h1 | h1
        · simp [h1]
        · simp [h1]
        · simp [h1]
        · simp [h1])
      (alGet_setGuard_self _ (by rw [hg]; rfl))
      (fun cb hcb => hpre cb (by simp [hcb]))
      hc
      (fun cb hcb => by
        have h1 : cb ∉ g := hdisj cb (by
          rcases (by simpa using hcb : cb ∈ pre' ∨ cb = c) with h | h
          · simp [h]
          · simp [h])
        have hnd' : (x :: (pre' ++ [c])).Nodup := by simpa using hnd
        have h2 : cb ≠ x := fun he => (List.nodup_cons.mp hnd').1 (he ▸ hcb)
        simp [h1, h2])
      (by
        have := hnd
        simp only [List.cons_append, List.nodup_cons] at this
        exact this.2)
    simp only [List.cons_append, runLoop, hGuardD, if_neg hxg, hxbeh, List.append_eq]
    rw [hih]
    simp only [clearGuard, setGuard_setGuard, readProp_setGuard]
    rfl

/-- The head of a list of the shape `pre ++ c :: post` lies in
`pre ++ [c]`. -/
theorem head_mem_pre_append {pre post : List Callback} {c h0 : Callback}
    (hhead : (pre ++ c :: post).head? = some h0) : h0 ∈ pre ++ [c] := by
  cases pre with
  | nil =>
    simp at hhead
    simp [hhead]
  | cons a t =>
    simp at hhead
    simp [hhead]

/-- Concrete callbacks and states used by the closed theorems below:
`obsA` records, `obsB` re-entrantly assigns `value + 1` to the
attribute it observes (the test-suite's `invalid_observer`). -/
def obsA : Callback := ⟨1, "observerA", .record⟩

/-- A recording callback distinct from `obsA`. -/
def obsC : Callback := ⟨3, "observerC", .record⟩

/-- The re-entrantly assigning callback (`invalid_observer`). -/
def obsB : Callback := ⟨2, "observerB", .assignSame 1⟩

/-- A class `Test` with one observable property `value`, observers
`obsA` then `obsB` subscribed, an empty guard and default storage. -/
def cexSt : SysState := ⟨"Test", [("value", [obsA, obsB])], [("value", [])], []⟩

/-- A class `Test` with only the assigning observer subscribed. -/
def mutSt : SysState := ⟨"Test", [("value", [obsB])], [("value", [])], []⟩

/-! ## Claim C3 -/

/-- C3, counterexample: with subscribers `[obsA, obsB]` where `obsB`
re-entrantly assigns to `value`, the failing write raises an
`ObservablePropertyError` whose message names `observerA` — the first
subscriber, already in the recursion guard when the nested write
re-scans the list — and not the offending callback `observerB`. -/
theorem C3_counterexample :
    (observableSet 3 cexSt 0 "value" 7).errOf
        = some (.observablePropertyError (mutationMsg "observerA" "Test" "value"))
      ∧ mutationMsg "observerA" "Test" "value" ≠ mutationMsg "observerB" "Test" "value" := by
  decide

/-- C3 (amended): if a callback, while being notified of a write to an
observable attribute, assigns to that same attribute, the write fails
with an `ObservablePropertyError` identifying the first subscribed
callback already present in the recursion guard (the offending
callback itself whenever it is the first or sole subscriber), the
owning instance's type and the attribute name, instead of invoking
callbacks again; immediately afterward the recursion guard is empty
and storage is unchanged, so once the offending callback is
unsubscribed a subsequent independent write to the attribute succeeds
normally. -/
theorem C3_reentrant_assignment_rejected (fuel : Nat) (st : SysState) (inst : Nat)
    (propName : String) (v v2 : Int) (pre post : List Callback) (c : Callback) (d : Int)
    (h0 : Callback)
    (hk : alKeysNodup st.guards)
    (hreg : alGet st.registry propName = some (pre ++ c :: post))
    (hhead : (pre ++ c :: post).head? = some h0)
    (hg : alGet st.guards propName = some [])
    (hpre : ∀ cb ∈ pre, cb.beh = .record)
    (hc : c.beh = .assignSame d)
    (hpost : ∀ cb ∈ post, cb.beh = .record)
    (hnd : (pre ++ c :: post).Nodup) :
    observableSet (fuel + 2) st inst propName v
      = .err (clearGuard st propName)
          ((pre.map fun cb => ⟨cb, inst, propName, v, readProp st inst propName⟩)
            ++ [⟨c, inst, propName, v, readProp st inst propName⟩])
          (.observablePropertyError (mutationMsg h0.name st.clsName propName))
    ∧ alGet (clearGuard st propName).guards propName = some []
    ∧ (clearGuard st propName).store = st.store
    ∧ ∃ st2, unsubscribe c (clearGuard st propName) inst propName = .ok (st2, true)
        ∧ observableSet (fuel + 1) st2 inst propName v2
            = .ok (commit (clearGuard st2 propName) inst propName v2)
                ((pre ++ post).map fun cb => ⟨cb, inst, propName, v2, readProp st inst propName⟩) := by
  have hndPreC : (pre ++ [c]).Nodup := by
    refine hnd.sublist ?_
    exact ((List.cons_sublist_cons.mpr (List.nil_sublist post)).append_left pre)
  have hloop := runLoop_records_then_assign fuel inst propName v c d post h0
    (pre ++ c :: post) pre st [] hk hreg hhead (by simpa using head_mem_pre_append hhead) hg
    hpre hc (by simp) hndPreC
  have hcnotpre : c ∉ pre := by
    have hdisj := List.disjoint_of_nodup_append hnd
    exact fun hcp => hdisj hcp (by simp)
  have hstep : observableSet (fuel + 2) st inst propName v
      = match runLoop (fun s w => observableSet (fuel + 1) s inst propName w) inst propName v st
            (pre ++ c :: post) with
        | .ok st1 evs => .ok (commit (clearGuard st1 propName) inst propName v) evs
        | .err st1 evs e => .err (clearGuard st1 propName) evs e := by
    rw [observableSet_succ, hreg, hg]
  have hwrite : observableSet (fuel + 2) st inst propName v
      = .err (clearGuard st propName)
          ((pre.map fun cb => ⟨cb, inst, propName, v, readProp st inst propName⟩)
            ++ [⟨c, inst, propName, v, readProp st inst propName⟩])
          (.observablePropertyError (mutationMsg h0.name st.clsName propName)) := by
    rw [hstep, hloop]
    simp [clearGuard, setGuard_setGuard]
  refine ⟨hwrite, alGet_setGuard_self _ (by rw [hg]; rfl), rfl, ?_⟩
  have herase : (pre ++ c :: post).erase c = pre ++ post := by
    rw [List.erase_append_right _ hcnotpre, List.erase_cons_head]
  have hcmem : c ∈ pre ++ c :: post := by simp
  refine ⟨{ clearGuard st propName with
            registry := alPut st.registry propName (pre ++ post) }, ?_, ?_⟩
  · simp only [unsubscribe, clearGuard, setGuard, hreg]
    rw [if_pos hcmem, herase]
  · have hrecords : ∀ cb ∈ pre ++ post, cb.beh = .record := by
      intro cb hcb
      rcases List.mem_append.mp hcb with h | h
      · exact hpre cb h
      · exact hpost cb h
    have hndPP : (pre ++ post).Nodup := by
      refine hnd.sublist ?_
      exact ((List.sublist_cons_self c post).append_left pre)
    exact observableSet_records fuel _ inst propName v2 (pre ++ post)
      (alKeysNodup_alPut hk)
      (alGet_alPut_self _ _ _ (by rw [hreg]; rfl))
      (alGet_alPut_self _ _ _ (by rw [hg]; rfl))
      hrecords hndPP

/-- C3, witness for the amended theorem: the sole subscriber `obsB`
assigns re-entrantly; the error names `observerB` itself, the class
`Test` and the property `value`; after unsubscribing it, a write
succeeds. -/
theorem C3_reentrant_assignment_rejected_witness :
    observableSet 2 mutSt 0 "value" 4
      = .err (clearGuard mutSt "value")
          (([] : List Callback).map (fun cb => ⟨cb, 0, "value", 4, readProp mutSt 0 "value"⟩)
            ++ [⟨obsB, 0, "value", 4, readProp mutSt 0 "value"⟩])
          (.observablePropertyError (mutationMsg "observerB" "Test" "value"))
    ∧ alGet (clearGuard mutSt "value").guards "value" = some []
    ∧ (clearGuard mutSt "value").store = mutSt.store
    ∧ ∃ st2, unsubscribe obsB (clearGuard mutSt "value") 0 "value" = .ok (st2, true)
        ∧ observableSet 1 st2 0 "value" 5
            = .ok (commit (clearGuard st2 "value") 0 "value" 5)
                (([] ++ [] : List Callback).map
                  fun cb => ⟨cb, 0, "value", 5, readProp mutSt 0 "value"⟩) :=
  C3_reentrant_assignment_rejected 0 mutSt 0 "value" 4 5 [] [] obsB 1 obsB
    (by decide) (by decide) (by decide) (by decide) (by decide) (by decide) (by decide)
    (by decide)

/-! ## Claim C4 -/

/-- Concrete state for witnesses: class `Test`, observable `value`
holding 5 on instance 0, recording observers `obsA` then `obsC`
subscribed. -/
def phSt : SysState := ⟨"Test", [("value", [obsA, obsC])], [("value", [])], [((0, "value"), 5)]⟩

/-- C4: for every subscribed (before-phase) callback, during a write of
new value `v`, the value the callback obtains by reading the attribute
from inside the callback equals the attribute's value prior to the
write, and the notification argument passed to the callback equals
`v`.  In the source every subscriber is notified before the commit, so
the subscribers are exactly the before-phase callbacks. -/
theorem C4_before_callbacks_observe_old_value (fuel : Nat) (st : SysState) (inst : Nat)
    (propName : String) (v : Int) (subs : List Callback)
    (hk : alKeysNodup st.guards)
    (hreg : alGet st.registry propName = some subs)
    (hg : alGet st.guards propName = some [])
    (hrec : ∀ cb ∈ subs, cb.beh = .record)
    (hnd : subs.Nodup) :
    (observableSet (fuel + 1) st inst propName v).events
        = subs.map (fun cb => ⟨cb, inst, propName, v, readProp st inst propName⟩)
      ∧ ∀ e ∈ (observableSet (fuel + 1) st inst propName v).events,
          e.observed = readProp st inst propName ∧ e.arg = v := by
  rw [observableSet_records fuel st inst propName v subs hk hreg hg hrec hnd]
  refine ⟨rfl, ?_⟩
  intro e he
  simp only [WResult.events] at he
  obtain ⟨cb, hcb, rfl⟩ := List.mem_map.mp he
  exact ⟨rfl, rfl⟩

/-- C4, witness: writing 9 to `value` (previously 5) on `phSt`: both
observers are invoked with argument 9 while a read from inside the
callback still returns 5. -/
theorem C4_before_callbacks_observe_old_value_witness :
    (observableSet 1 phSt 0 "value" 9).events
        = [obsA, obsC].map (fun cb => ⟨cb, 0, "value", 9, readProp phSt 0 "value"⟩)
      ∧ ∀ e ∈ (observableSet 1 phSt 0 "value" 9).events,
          e.observed = readProp phSt 0 "value" ∧ e.arg = 9 :=
  C4_before_callbacks_observe_old_value 0 phSt 0 "value" 9 [obsA, obsC]
    (by decide) (by decide) (by decide) (by decide) (by decide)

/-! ## Claim C5 -/

/-- C5: the subscriber registry is kept per (owning type, attribute
name) and shared by every instance: `subscribe` edits the same
class-level list whichever instance it is handed (its result does not
depend on the instance), and after subscribing through `inst1`, a
write to the same attribute on any other instance `inst2` invokes the
callback with `inst2` as the instance argument. -/
theorem C5_registry_shared_across_instances (fuel : Nat) (st : SysState)
    (subs : List Callback) (cb : Callback) (inst1 inst2 : Nat) (propName : String) (v : Int)
    (hk : alKeysNodup st.guards)
    (hreg : alGet st.registry propName = some subs)
    (hg : alGet st.guards propName = some [])
    (hnew : cb ∉ subs)
    (hrec : ∀ x ∈ subs, x.beh = .record)
    (hcb : cb.beh = .record)
    (hnd : (subs ++ [cb]).Nodup) :
    ∃ st1, subscribe cb st inst1 propName = .ok st1
      ∧ (∀ j : Nat, subscribe cb st j propName = subscribe cb st inst1 propName)
      ∧ observableSet (fuel + 1) st1 inst2 propName v
          = .ok (commit (clearGuard st1 propName) inst2 propName v)
              ((subs ++ [cb]).map fun x => ⟨x, inst2, propName, v, readProp st inst2 propName⟩)
      ∧ (⟨cb, inst2, propName, v, readProp st inst2 propName⟩ : Event)
          ∈ (observableSet (fuel + 1) st1 inst2 propName v).events := by
  have hrecords : ∀ x ∈ subs ++ [cb], x.beh = .record := by
    intro x hx
    rcases List.mem_append.mp hx with h | h
    · exact hrec x h
    · simp at h
      exact h ▸ hcb
  have hwrite := observableSet_records fuel
    { st with registry := alPut st.registry propName (subs ++ [cb]) } inst2 propName v
    (subs ++ [cb]) hk (alGet_alPut_self _ _ _ (by rw [hreg]; rfl)) hg hrecords hnd
  refine ⟨{ st with registry := alPut st.registry propName (subs ++ [cb]) }, ?_, ?_, hwrite, ?_⟩
  · simp [subscribe, hreg, hnew]
  · intro j
    rfl
  · rw [hwrite]
    simp only [WResult.events]
    exact List.mem_map.mpr ⟨cb, by simp, rfl⟩

/-- State for the C5 witness: class `Item` with observable `value` and
no subscribers yet. -/
def c5St : SysState := ⟨"Item", [("value", [])], [("value", [])], []⟩

/-- C5, witness: subscribing `obsA` through instance 5 makes a write
on instance 9 invoke `obsA` with instance 9. -/
theorem C5_registry_shared_across_instances_witness :
    ∃ st1, subscribe obsA c5St 5 "value" = .ok st1
      ∧ (∀ j : Nat, subscribe obsA c5St j "value" = subscribe obsA c5St 5 "value")
      ∧ observableSet 1 st1 9 "value" 42
          = .ok (commit (clearGuard st1 "value") 9 "value" 42)
              (([] ++ [obsA]).map fun x => ⟨x, 9, "value", 42, readProp c5St 9 "value"⟩)
      ∧ (⟨obsA, 9, "value", 42, readProp c5St 9 "value"⟩ : Event)
          ∈ (observableSet 1 st1 9 "value" 42).events :=
  C5_registry_shared_across_instances 0 c5St [] obsA 5 9 "value" 42
    (by decide) (by decide) (by decide) (by decide) (by decide) (by decide) (by decide)

/-! ## Claim C6 -/

/-- C6: for every target and every attribute name that is not declared
observable on the target's type (no `__<name>_subscribers` class
attribute exists, which covers both non-observable and non-existent
attributes), subscribing raises `ObservablePropertyError` — through
the free function `subscribe` and through the façade's
`Observable.subscribe` entry point alike. -/
theorem C6_subscribe_not_observable_raises (st : SysState) (cb func : Callback) (inst : Nat)
    (propName : String)
    (h : alGet st.registry propName = none) :
    subscribe cb st inst propName
        = .error (.observablePropertyError (notObservableMsg propName st.clsName))
      ∧ observableSubscribe st inst propName func
        = .error (.observablePropertyError (notObservableMsg propName st.clsName)) := by
  constructor
  · simp [subscribe, h]
  · simp [observableSubscribe, subscribe, h]

/-- C6, witness: on `mutSt` (class `Test`, only `value` observable),
subscribing to the plain property `name` fails through both entry
points with the `ObservablePropertyError` message. -/
theorem C6_subscribe_not_observable_raises_witness :
    subscribe obsA mutSt 0 "name"
        = .error (.observablePropertyError (notObservableMsg "name" "Test"))
      ∧ observableSubscribe mutSt 0 "name" obsC
        = .error (.observablePropertyError (notObservableMsg "name" "Test")) :=
  C6_subscribe_not_observable_raises mutSt obsA obsC 0 "name" (by decide)

/-! ## Claim C7 -/

/-- C7: `unsubscribe(callback, target, attributeName)` on a declared
observable attribute removes the callback from the (single) subscriber
list and returns true; for a callback that was never subscribed it
returns false and raises nothing; it raises `ObservablePropertyError`
exactly when the attribute name is not observable at all. -/
theorem C7_unsubscribe_semantics (st : SysState) (subs : List Callback) (cb : Callback)
    (inst : Nat) (propName badName : String)
    (hreg : alGet st.registry propName = some subs)
    (hbad : alGet st.registry badName = none) :
    (cb ∈ subs → unsubscribe cb st inst propName
        = .ok ({ st with registry := alPut st.registry propName (subs.erase cb) }, true))
    ∧ (cb ∉ subs → unsubscribe cb st inst propName = .ok (st, false))
    ∧ unsubscribe cb st inst badName
        = .error (.observablePropertyError (notObservableMsg badName st.clsName)) := by
  refine ⟨fun hm => ?_, fun hm => ?_, ?_⟩
  · simp [unsubscribe, hreg, hm]
  · simp [unsubscribe, hreg, hm]
  · simp [unsubscribe, hbad]

/-- C7, witness: on `cexSt`, unsubscribing the subscribed `obsA` from
`value` succeeds, unsubscribing it again from a registry without it
returns false, and unsubscribing from the non-observable `name`
raises. -/
theorem C7_unsubscribe_semantics_witness :
    (obsA ∈ [obsA, obsB] → unsubscribe obsA cexSt 0 "value"
        = .ok ({ cexSt with registry := alPut cexSt.registry "value" ([obsA, obsB].erase obsA) },
            true))
    ∧ (obsA ∉ [obsA, obsB] → unsubscribe obsA cexSt 0 "value" = .ok (cexSt, false))
    ∧ unsubscribe obsA cexSt 0 "name"
        = .error (.observablePropertyError (notObservableMsg "name" "Test")) :=
  C7_unsubscribe_semantics cexSt [obsA, obsB] obsA 0 "value" "name" (by decide) (by decide)

/-! ## Claim C9 -/

/-- C9: `subscribe` is idempotent — subscribing a callback that is
already registered leaves the registry (and the whole state)
unchanged, and a subsequent write invokes that callback exactly
once. -/
theorem C9_subscribe_idempotent (fuel : Nat) (st : SysState) (subs : List Callback)
    (cb : Callback) (inst : Nat) (propName : String) (v : Int)
    (hk : alKeysNodup st.guards)
    (hreg : alGet st.registry propName = some subs)
    (hg : alGet st.guards propName = some [])
    (hmem : cb ∈ subs)
    (hrec : ∀ x ∈ subs, x.beh = .record)
    (hnd : subs.Nodup) :
    subscribe cb st inst propName = .ok st
    ∧ observableSet (fuel + 1) st inst propName v
        = .ok (commit (clearGuard st propName) inst propName v)
            (subs.map fun x => ⟨x, inst, propName, v, readProp st inst propName⟩)
    ∧ ((observableSet (fuel + 1) st inst propName v).events.map Event.cb).count cb = 1 := by
  have hw := observableSet_records fuel st inst propName v subs hk hreg hg hrec hnd
  refine ⟨by simp [subscribe, hreg, hmem], hw, ?_⟩
  rw [hw]
  simp only [WResult.events, List.map_map]
  have hcomp : (Event.cb ∘ fun x =>
      (⟨x, inst, propName, v, readProp st inst propName⟩ : Event)) = id := rfl
  rw [hcomp, List.map_id]
  exact List.count_eq_one_of_mem hnd hmem

/-- C9, witness: `obsA` is already subscribed on `phSt`; re-subscribing
returns the state unchanged and a write fires `obsA` exactly once. -/
theorem C9_subscribe_idempotent_witness :
    subscribe obsA phSt 0 "value" = .ok phSt
    ∧ observableSet 1 phSt 0 "value" 7
        = .ok (commit (clearGuard phSt "value") 0 "value" 7)
            ([obsA, obsC].map fun x => ⟨x, 0, "value", 7, readProp phSt 0 "value"⟩)
    ∧ ((observableSet 1 phSt 0 "value" 7).events.map Event.cb).count obsA = 1 :=
  C9_subscribe_idempotent 0 phSt [obsA, obsC] obsA 0 "value" 7
    (by decide) (by decide) (by decide) (by decide) (by decide) (by decide)

/-! ## Claim C10 -/

/-- C10: every failure of the public API is raised as the single
exception class `ObservablePropertyError`: subscribing with a
non-observable name, unsubscribing with a non-existent name, and a
callback re-entrantly assigning the attribute it is notified about all
produce the same `PyErr.observablePropertyError` constructor, so the
failure kinds are distinguishable only by message, not by exception
type. -/
theorem C10_single_exception_class :
    subscribe obsA mutSt 0 "name"
        = .error (.observablePropertyError (notObservableMsg "name" "Test"))
      ∧ unsubscribe obsA mutSt 0 "foo"
        = .error (.observablePropertyError (notObservableMsg "foo" "Test"))
      ∧ (observableSet 2 mutSt 0 "value" 1).errOf
        = some (.observablePropertyError (mutationMsg "observerB" "Test" "value")) :=
  ⟨rfl, rfl, by decide⟩

/-! ## Phase-aware model: structural lemmas -/

/-- One-step unfolding of the phase-aware Write at positive fuel. -/
theorem pwrite_succ (fuel : Nat) (st : PState) (inst : Nat) (propName : String) (v : Int) :
    pwrite (fuel + 1) st inst propName v
      = match alGet st.registryB propName, alGet st.registryA propName,
            alGet st.guards propName with
        | some beforeSubs, some afterSubs, some _ =>
          match ploop (fun s w => pwrite fuel s inst propName w) inst propName v st beforeSubs with
          | .err st1 evs e => .err (pclearGuard st1 propName) evs e
          | .ok st1 evs1 =>
            let st2 := pcommit st1 inst propName v
            match ploop (fun s w => pwrite fuel s inst propName w) inst propName v st2 afterSubs with
            | .ok st3 evs2 => .ok (pclearGuard st3 propName) (evs1 ++ evs2)
            | .err st3 evs2 e => .err (pclearGuard st3 propName) (evs1 ++ evs2) e
        | _, _, _ => .err st [] .attributeError := rfl

theorem psetGuard_psetGuard (st : PState) (p : String) (g g2 : List Callback) :
    psetGuard (psetGuard st p g) p g2 = psetGuard st p g2 := by
  simp [psetGuard, alPut_alPut]

theorem psetGuard_self {st : PState} {p : String} {g : List Callback}
    (hnd : alKeysNodup st.guards) (h : alGet st.guards p = some g) :
    psetGuard st p g = st := by
  unfold psetGuard
  rw [alPut_self_of_nodup hnd h]

theorem alGet_psetGuard_self {st : PState} {p : String} (g : List Callback)
    (h : (alGet st.guards p).isSome) : alGet (psetGuard st p g).guards p = some g :=
  alGet_alPut_self _ _ _ h

theorem preadProp_psetGuard (st : PState) (p : String) (g : List Callback) (inst : Nat)
    (q : String) : preadProp (psetGuard st p g) inst q = preadProp st inst q := rfl

theorem preadProp_pcommit_self (st : PState) (inst : Nat) (p : String) (v : Int) :
    preadProp (pcommit st inst p v) inst p = v := by
  simp [preadProp, pcommit, storeGet]

/-- The callback-running loop of the phase-aware model on record-only
callbacks: each fires once in order with the current (not-yet-changed)
stored value observable from inside the callback; the guard
accumulates the callbacks and nothing else changes. -/
theorem ploop_records (nested : PState → Int → PResult) (inst : Nat) (propName : String)
    (v : Int) (subs : List Callback) :
    ∀ (st : PState) (g : List Callback),
      alKeysNodup st.guards →
      alGet st.guards propName = some g →
      (∀ cb ∈ subs, cb.beh = .record) →
      (∀ cb ∈ subs, cb ∉ g) →
      subs.Nodup →
      ploop nested inst propName v st subs
        = .ok (psetGuard st propName (g ++ subs))
            (subs.map fun cb => ⟨cb, inst, propName, v, preadProp st inst propName⟩) := by
  induction subs with
  | nil =>
    intro st g hk hg _ _ _
    simp [ploop, psetGuard_self hk hg]
  | cons cb rest ih =>
    intro st g hk hg hrec hdisj hnd
    have hcb : cb ∉ g := hdisj cb (by simp)
    have hbeh : cb.beh = .record := hrec cb (by simp)
    have hGuardD : (alGet st.guards propName).getD [] = g := by rw [hg]; rfl
    have hih := ih (psetGuard st propName (g ++ [cb])) (g ++ [cb])
      (alKeysNodup_alPut hk)
      (alGet_psetGuard_self _ (by rw [hg]; rfl))
      (fun c hc => hrec c (by simp [hc]))
      (fun c hc => by
        have h1 : c ∉ g := hdisj c (by simp [hc])
        have h2 : c ≠ cb := fun hceq => (List.nodup_cons.mp hnd).1 (hceq ▸ hc)
        simp [h1, h2])
      (List.nodup_cons.mp hnd).2
    simp only [ploop, hGuardD, if_neg hcb, hbeh]
    rw [hih]
    simp [psetGuard_psetGuard, preadProp_psetGuard]

/-- A phase-aware write whose before-list starts with a callback
already in the recursion guard fails at once, clearing the guard and
touching neither storage nor the registries. -/
theorem pwrite_headGuarded (fuel : Nat) (st : PState) (inst : Nat) (propName : String)
    (v : Int) (h : Callback) (t : List Callback) (al g : List Callback)
    (hB : alGet st.registryB propName = some (h :: t))
    (hA : alGet st.registryA propName = some al)
    (hg : alGet st.guards propName = some g)
    (hmem : h ∈ g) :
    pwrite (fuel + 1) st inst propName v
      = .err (pclearGuard st propName) []
          (.observablePropertyError (mutationMsg h.name st.clsName propName)) := by
  simp only [pwrite_succ, hB, hA, hg, ploop, Option.getD_some]
  rw [if_pos hmem]

/-! ## Claim C1 -/

/-- C1 (modelled from the spec, see the phase-aware model above):
Write(instance, newValue) runs all before-phase callbacks with
`(instance, attributeName, newValue)` in subscription order, then
commits `newValue` to the instance's storage, then runs all
after-phase callbacks with the same arguments in subscription order;
every after-phase callback observes the attribute already holding the
new value (its `observed` component equals `v`), and a read after the
write returns `v`. -/
theorem C1_write_phase_order (fuel : Nat) (st : PState) (inst : Nat) (propName : String)
    (v : Int) (bl al : List Callback)
    (hk : alKeysNodup st.guards)
    (hB : alGet st.registryB propName = some bl)
    (hA : alGet st.registryA propName = some al)
    (hg : alGet st.guards propName = some [])
    (hrec : ∀ cb ∈ bl ++ al, cb.beh = .record)
    (hnd : (bl ++ al).Nodup) :
    pwrite (fuel + 1) st inst propName v
      = .ok (pcommit (pclearGuard st propName) inst propName v)
          ((bl.map fun cb => ⟨cb, inst, propName, v, preadProp st inst propName⟩)
            ++ (al.map fun cb => ⟨cb, inst, propName, v, v⟩))
    ∧ preadProp (pwrite (fuel + 1) st inst propName v).state inst propName = v := by
  have hndB : bl.Nodup := (List.nodup_append.mp hnd).1
  have hndA : al.Nodup := (List.nodup_append.mp hnd).2.1
  have hdisjBA : ∀ cb ∈ al, cb ∉ bl := by
    intro cb hcb hbl
    exact (List.nodup_append.mp hnd).2.2 hbl hcb
  have hloopB := ploop_records (fun s w => pwrite fuel s inst propName w) inst propName v bl
    st [] hk hg (fun cb hcb => hrec cb (by simp [hcb])) (by simp) hndB
  have hkB : alKeysNodup (pcommit (psetGuard st propName ([] ++ bl)) inst propName v).guards :=
    alKeysNodup_alPut hk
  have hgB : alGet (pcommit (psetGuard st propName ([] ++ bl)) inst propName v).guards propName
      = some bl := by
    simpa using @alGet_psetGuard_self st propName bl (by rw [hg]; rfl)
  have hloopA := ploop_records (fun s w => pwrite fuel s inst propName w) inst propName v al
    (pcommit (psetGuard st propName ([] ++ bl)) inst propName v) bl hkB hgB
    (fun cb hcb => hrec cb (by simp [hcb])) hdisjBA hndA
  rw [preadProp_pcommit_self] at hloopA
  have hstep : pwrite (fuel + 1) st inst propName v
      = match ploop (fun s w => pwrite fuel s inst propName w) inst propName v st bl with
        | .err st1 evs e => .err (pclearGuard st1 propName) evs e
        | .ok st1 evs1 =>
          match ploop (fun s w => pwrite fuel s inst propName w) inst propName v
              (pcommit st1 inst propName v) al with
          | .ok st3 evs2 => .ok (pclearGuard st3 propName) (evs1 ++ evs2)
          | .err st3 evs2 e => .err (pclearGuard st3 propName) (evs1 ++ evs2) e := by
    rw [pwrite_succ, hB, hA, hg]
  have hstep2 : pwrite (fuel + 1) st inst propName v
      = match ploop (fun s w => pwrite fuel s inst propName w) inst propName v
            (pcommit (psetGuard st propName ([] ++ bl)) inst propName v) al with
        | .ok st3 evs2 =>
          .ok (pclearGuard st3 propName)
            ((bl.map fun cb => ⟨cb, inst, propName, v, preadProp st inst propName⟩) ++ evs2)
        | .err st3 evs2 e =>
          .err (pclearGuard st3 propName)
            ((bl.map fun cb => ⟨cb, inst, propName, v, preadProp st inst propName⟩) ++ evs2) e := by
    rw [hstep, hloopB]
  have hstep3 : pwrite (fuel + 1) st inst propName v
      = .ok (pclearGuard (psetGuard (pcommit (psetGuard st propName ([] ++ bl)) inst propName v)
            propName (bl ++ al)) propName)
          ((bl.map fun cb => ⟨cb, inst, propName, v, preadProp st inst propName⟩)
            ++ (al.map fun cb => ⟨cb, inst, propName, v, v⟩)) := by
    rw [hstep2, hloopA]
  have hst : pclearGuard (psetGuard (pcommit (psetGuard st propName ([] ++ bl)) inst propName v)
        propName (bl ++ al)) propName
      = pcommit (pclearGuard st propName) inst propName v := by
    show psetGuard (psetGuard (pcommit (psetGuard st propName ([] ++ bl)) inst propName v)
        propName (bl ++ al)) propName []
      = pcommit (psetGuard st propName []) inst propName v
    rw [psetGuard_psetGuard]
    show pcommit (psetGuard (psetGuard st propName ([] ++ bl)) propName []) inst propName v
      = pcommit (psetGuard st propName []) inst propName v
    rw [psetGuard_psetGuard]
  rw [hst] at hstep3
  refine ⟨hstep3, ?_⟩
  rw [hstep3]
  exact preadProp_pcommit_self _ _ _ _

/-- Phase-aware state for witnesses: class `Test`, before-observer
`obsA`, after-observer `obsC`, `value` holding 5 on instance 0. -/
def pSt1 : PState :=
  ⟨"Test", [("value", [obsA])], [("value", [obsC])], [("value", [])], [((0, "value"), 5)]⟩

/-- C1, witness: writing 9 on `pSt1` fires `obsA` (before, observing
5) then `obsC` (after, observing 9), and a final read returns 9. -/
theorem C1_write_phase_order_witness :
    pwrite 1 pSt1 0 "value" 9
      = .ok (pcommit (pclearGuard pSt1 "value") 0 "value" 9)
          (([obsA].map fun cb => ⟨cb, 0, "value", 9, preadProp pSt1 0 "value"⟩)
            ++ ([obsC].map fun cb => ⟨cb, 0, "value", 9, 9⟩))
    ∧ preadProp (pwrite 1 pSt1 0 "value" 9).state 0 "value" = 9 :=
  C1_write_phase_order 0 pSt1 0 "value" 9 [obsA] [obsC]
    (by decide) (by decide) (by decide) (by decide) (by decide) (by decide)

/-! ## Claim C2 -/

/-- C2 (modelled from the spec, see the phase-aware model above): the
façade's manual-notify entry point invokes the same callback-running
logic as Write (`pnotify` runs the very `ploop` that `pwrite` runs)
without touching storage: invoking the test-suite's mutating method
`indirect` fires every subscribed callback with the computed new value
`value * 2`, while the storage is left exactly as it was — no
assignment to the attribute happens. -/
theorem C2_manual_notify_computed_value (fuel : Nat) (st : PState) (selfInst : Nat)
    (value : Int) (al : List Callback)
    (hk : alKeysNodup st.guards)
    (hA : alGet st.registryA "value" = some al)
    (hg : alGet st.guards "value" = some [])
    (hrec : ∀ cb ∈ al, cb.beh = .record)
    (hnd : al.Nodup) :
    indirect fuel st selfInst value
      = .ok (pclearGuard st "value")
          (al.map fun cb => ⟨cb, selfInst, "value", value * 2, preadProp st selfInst "value"⟩)
    ∧ (indirect fuel st selfInst value).state.store = st.store := by
  have hloop := ploop_records (fun s w => pwrite fuel s selfInst "value" w) selfInst "value"
    (value * 2) al st [] hk hg hrec (by simp) hnd
  have hstep : indirect fuel st selfInst value
      = match alGet st.registryA "value", alGet st.guards "value" with
        | some subs, some _ =>
          (match ploop (fun s w => pwrite fuel s selfInst "value" w) selfInst "value"
              (value * 2) st subs with
           | .ok st1 evs => .ok (pclearGuard st1 "value") evs
           | .err st1 evs e => .err (pclearGuard st1 "value") evs e)
        | _, _ => .err st [] (.observablePropertyError (notObservableMsg "value" st.clsName)) :=
    rfl
  have hstep2 : indirect fuel st selfInst value
      = match ploop (fun s w => pwrite fuel s selfInst "value" w) selfInst "value"
            (value * 2) st al with
        | .ok st1 evs => .ok (pclearGuard st1 "value") evs
        | .err st1 evs e => .err (pclearGuard st1 "value") evs e := by
    rw [hstep, hA, hg]
  have hnotify : indirect fuel st selfInst value
      = .ok (pclearGuard st "value")
          (al.map fun cb => ⟨cb, selfInst, "value", value * 2, preadProp st selfInst "value"⟩) := by
    rw [hstep2, hloop]
    show PResult.ok (pclearGuard (psetGuard st "value" ([] ++ al)) "value") _ = _
    rw [show pclearGuard (psetGuard st "value" ([] ++ al)) "value"
        = pclearGuard st "value" from by
      simp [pclearGuard, psetGuard_psetGuard]]
  refine ⟨hnotify, ?_⟩
  rw [hnotify]
  rfl

/-- Phase-aware state for the C2 witness: class `Product` with a
computed observable `value`, after-observer `obsA` subscribed, no
storage written. -/
def pSt2 : PState := ⟨"Product", [("value", [])], [("value", [obsA])], [("value", [])], []⟩

/-- C2, witness: `indirect 21` fires `obsA` with the computed value 42
and leaves storage untouched. -/
theorem C2_manual_notify_computed_value_witness :
    indirect 1 pSt2 0 21
      = .ok (pclearGuard pSt2 "value")
          ([obsA].map fun cb => ⟨cb, 0, "value", 21 * 2, preadProp pSt2 0 "value"⟩)
    ∧ (indirect 1 pSt2 0 21).state.store = pSt2.store :=
  C2_manual_notify_computed_value 1 pSt2 0 21 [obsA]
    (by decide) (by decide) (by decide) (by decide) (by decide)

/-! ## Claim C8: phase/commit interaction lemmas -/

/-- During the before phase of a phase-aware write started with an
empty guard, storage can never change: processing the suffix `s` of
the before-list `done ++ s` with the guard holding exactly `done`
either completes having only grown the guard (`.ok` state is a guard
update of the entry state) or fails with the entry state's storage
intact — a callback that re-entrantly assigns is stopped by the
nested write before that write can commit, because the head of the
before-list is already in the guard. -/
theorem ploop_before_phase (fuel : Nat) (inst : Nat) (propName : String) (v : Int)
    (al : List Callback) (s : List Callback) :
    ∀ (done : List Callback) (st : PState),
      alKeysNodup st.guards →
      alGet st.registryB propName = some (done ++ s) →
      alGet st.registryA propName = some al →
      alGet st.guards propName = some done →
      (∀ st1 evs, ploop (fun s2 w => pwrite fuel s2 inst propName w) inst propName v st s
          = .ok st1 evs → st1 = psetGuard st propName (done ++ s))
      ∧ (∀ st1 evs e, ploop (fun s2 w => pwrite fuel s2 inst propName w) inst propName v st s
          = .err st1 evs e → st1.store = st.store) := by
  induction s with
  | nil =>
    intro done st hk _ _ hg
    constructor
    · intro st1 evs h
      simp only [ploop] at h
      injection h with h1 h2
      subst h1
      rw [List.append_nil]
      exact (psetGuard_self hk hg).symm
    · intro st1 evs e h
      simp only [ploop] at h
      exact PResult.noConfusion h
  | cons cb rest ih =>
    intro done st hk hB hA hg
    have hGuardD : (alGet st.guards propName).getD [] = done := by rw [hg]; rfl
    by_cases hcb : cb ∈ done
    · constructor
      · intro st1 evs h
        simp only [ploop, hGuardD, if_pos hcb] at h
        exact PResult.noConfusion h
      · intro st1 evs e h
        simp only [ploop, hGuardD, if_pos hcb] at h
        injection h with h1 h2 h3
        subst h1
        rfl
    · have hBassoc : alGet st.registryB propName = some ((done ++ [cb]) ++ rest) := by
        rw [hB]
        simp
      have hstG : (psetGuard st propName (done ++ [cb])).registryB = st.registryB := rfl
      have hih := ih (done ++ [cb]) (psetGuard st propName (done ++ [cb]))
        (alKeysNodup_alPut hk)
        (by rw [hstG, hBassoc])
        hA
        (alGet_psetGuard_self _ (by rw [hg]; rfl))
      cases hbeh : cb.beh with
      | record =>
        constructor
        · intro st1 evs h
          simp only [ploop, hGuardD, if_neg hcb, hbeh] at h
          cases hr : ploop (fun s2 w => pwrite fuel s2 inst propName w) inst propName v
              (psetGuard st propName (done ++ [cb])) rest with
          | ok st2 evs2 =>
            rw [hr] at h
            simp only [] at h
            injection h with h1 h2
            subst h1
            rw [hih.1 st2 evs2 hr, psetGuard_psetGuard]
            simp
          | err st2 evs2 e2 =>
            rw [hr] at h
            simp only [] at h
            exact PResult.noConfusion h
        · intro st1 evs e h
          simp only [ploop, hGuardD, if_neg hcb, hbeh] at h
          cases hr : ploop (fun s2 w => pwrite fuel s2 inst propName w) inst propName v
              (psetGuard st propName (done ++ [cb])) rest with
          | ok st2 evs2 =>
            rw [hr] at h
            simp only [] at h
            exact PResult.noConfusion h
          | err st2 evs2 e2 =>
            rw [hr] at h
            simp only [] at h
            injection h with h1 h2 h3
            subst h1
            exact hih.2 st2 evs2 e2 hr
      | assignSame d =>
        have hnested : ∀ stN evsN eN,
            pwrite fuel (psetGuard st propName (done ++ [cb])) inst propName (v + d)
              = .err stN evsN eN → stN.store = st.store := by
          cases fuel with
          | zero =>
            intro stN evsN eN h
            simp only [pwrite] at h
            injection h with h1 h2 h3
            subst h1
            rfl
          | succ k =>
            intro stN evsN eN h
            obtain ⟨h0, t0, hL⟩ : ∃ h0 t0, done ++ cb :: rest = h0 :: t0 := by
              cases hLL : done ++ cb :: rest with
              | nil => simp at hLL
              | cons a t => exact ⟨a, t, rfl⟩
            have hhead : (done ++ cb :: rest).head? = some h0 := by rw [hL]; rfl
            have hmemG : h0 ∈ done ++ [cb] := head_mem_pre_append hhead
            have hw := pwrite_headGuarded k (psetGuard st propName (done ++ [cb])) inst propName
              (v + d) h0 t0 al (done ++ [cb])
              (by rw [hstG, hB, hL])
              hA
              (alGet_psetGuard_self _ (by rw [hg]; rfl))
              hmemG
            rw [hw] at h
            injection h with h1 h2 h3
            subst h1
            rfl
        have hnestedOkNone : ∀ stN evsN,
            pwrite fuel (psetGuard st propName (done ++ [cb])) inst propName (v + d)
              = .ok stN evsN → False := by
          cases fuel with
          | zero =>
            intro stN evsN h
            simp only [pwrite] at h
            exact PResult.noConfusion h
          | succ k =>
            intro stN evsN h
            obtain ⟨h0, t0, hL⟩ : ∃ h0 t0, done ++ cb :: rest = h0 :: t0 := by
              cases hLL : done ++ cb :: rest with
              | nil => simp at hLL
              | cons a t => exact ⟨a, t, rfl⟩
            have hhead : (done ++ cb :: rest).head? = some h0 := by rw [hL]; rfl
            have hmemG : h0 ∈ done ++ [cb] := head_mem_pre_append hhead
            have hw := pwrite_headGuarded k (psetGuard st propName (done ++ [cb])) inst propName
              (v + d) h0 t0 al (done ++ [cb])
              (by rw [hstG, hB, hL])
              hA
              (alGet_psetGuard_self _ (by rw [hg]; rfl))
              hmemG
            rw [hw] at h
            exact PResult.noConfusion h
        constructor
        · intro st1 evs h
          simp only [ploop, hGuardD, if_neg hcb, hbeh] at h
          cases hr : pwrite fuel (psetGuard st propName (done ++ [cb])) inst propName (v + d) with
          | ok st2 evs2 => exact absurd hr (fun hc => hnestedOkNone st2 evs2 hc)
          | err st2 evs2 e2 =>
            rw [hr] at h
            simp only [] at h
            exact PResult.noConfusion h
        · intro st1 evs e h
          simp only [ploop, hGuardD, if_neg hcb, hbeh] at h
          cases hr : pwrite fuel (psetGuard st propName (done ++ [cb])) inst propName (v + d) with
          | ok st2 evs2 => exact absurd hr (fun hc => hnestedOkNone st2 evs2 hc)
          | err st2 evs2 e2 =>
            rw [hr] at h
            simp only [] at h
            injection h with h1 h2 h3
            subst h1
            exact hnested st2 evs2 e2 hr

/-- During the after phase — once every before-phase callback is in
the guard — the callback-running loop cannot change storage either:
any re-entrant assignment is stopped by the nested write's before
phase (whose head is already guarded) before it can commit. -/
theorem ploop_guarded_head_store (fuel : Nat) (inst : Nat) (propName : String) (v : Int)
    (h0 : Callback) (bl2 al : List Callback) (s : List Callback) :
    ∀ (g : List Callback) (st : PState),
      alGet st.registryB propName = some (h0 :: bl2) →
      alGet st.registryA propName = some al →
      alGet st.guards propName = some g →
      h0 ∈ g →
      ((ploop (fun s2 w => pwrite fuel s2 inst propName w) inst propName v st s).state).store
        = st.store := by
  induction s with
  | nil =>
    intro g st _ _ _ _
    rfl
  | cons cb rest ih =>
    intro g st hB hA hg hmem
    have hGuardD : (alGet st.guards propName).getD [] = g := by rw [hg]; rfl
    by_cases hcb : cb ∈ g
    · simp only [ploop, hGuardD, if_pos hcb, PResult.state]
    · have hih := ih (g ++ [cb]) (psetGuard st propName (g ++ [cb]))
        hB hA (alGet_psetGuard_self _ (by rw [hg]; rfl)) (by simp [hmem])
      cases hbeh : cb.beh with
      | record =>
        simp only [ploop, hGuardD, if_neg hcb, hbeh]
        cases hr : ploop (fun s2 w => pwrite fuel s2 inst propName w) inst propName v
            (psetGuard st propName (g ++ [cb])) rest with
        | ok st2 evs2 =>
          rw [hr] at hih
          simpa [PResult.state] using hih
        | err st2 evs2 e2 =>
          rw [hr] at hih
          simpa [PResult.state] using hih
      | assignSame d =>
        simp only [ploop, hGuardD, if_neg hcb, hbeh]
        cases fuel with
        | zero =>
          simp only [pwrite, PResult.state]
          rfl
        | succ k =>
          have hw := pwrite_headGuarded k (psetGuard st propName (g ++ [cb])) inst propName
            (v + d) h0 bl2 al (g ++ [cb])
            hB hA (alGet_psetGuard_self _ (by rw [hg]; rfl)) (by simp [hmem])
          rw [hw]
          simp only [PResult.state]
          rfl

/-- Phase-aware state for the C8 counterexample: computed attribute
with an empty before-phase list and the re-entrantly assigning
`obsB` subscribed in the after phase; `value` storage 0. -/
def c8St : PState :=
  ⟨"Gauge", [("value", [])], [("value", [obsB])], [("value", [])], [((0, "value"), 0)]⟩

/-- C8, counterexample: writing 1 on `c8St` raises the re-entrant
mutation error during the after phase, yet a read after the failed
write returns 2 — the nested commit of the re-entrant assignment —
not the written value 1: "the value remains committed" fails as
stated when the before-phase list is empty. -/
theorem C8_counterexample :
    (pwrite 3 c8St 0 "value" 1).errOf
        = some (.observablePropertyError (mutationMsg "observerB" "Gauge" "value"))
      ∧ preadProp (pwrite 3 c8St 0 "value" 1).state 0 "value" = 2
      ∧ ((2 : Int) = 1 → False) :=
  ⟨by decide, by decide, by decide⟩

/-- C8 (amended; modelled from the spec, see the phase-aware model
above): if the re-entrant-mutation error arises during the before
phase of a write, the new value is never committed — the failed
write's final state reads back the old value; if the before phase
completed and the error arose during the after phase, the write's
commit is not rolled back and, provided the before-phase list is
nonempty, a read after the failed write returns the written value
(with an empty before-phase list the re-entrant assignment's own
nested commit can overwrite it, as the counterexample shows). -/
theorem C8_commit_vs_phase (fuel : Nat) (st : PState) (inst : Nat) (propName : String)
    (v : Int) (bl al : List Callback)
    (hk : alKeysNodup st.guards)
    (hB : alGet st.registryB propName = some bl)
    (hA : alGet st.registryA propName = some al)
    (hg : alGet st.guards propName = some []) :
    (∀ st1 evs e,
      ploop (fun s w => pwrite fuel s inst propName w) inst propName v st bl = .err st1 evs e →
        pwrite (fuel + 1) st inst propName v = .err (pclearGuard st1 propName) evs e
        ∧ preadProp (pwrite (fuel + 1) st inst propName v).state inst propName
            = preadProp st inst propName)
    ∧ (∀ st1 evs1,
      ploop (fun s w => pwrite fuel s inst propName w) inst propName v st bl = .ok st1 evs1 →
      bl ≠ [] →
      preadProp (pwrite (fuel + 1) st inst propName v).state inst propName = v) := by
  have hstep : pwrite (fuel + 1) st inst propName v
      = match ploop (fun s w => pwrite fuel s inst propName w) inst propName v st bl with
        | .err st1 evs e => .err (pclearGuard st1 propName) evs e
        | .ok st1 evs1 =>
          match ploop (fun s w => pwrite fuel s inst propName w) inst propName v
              (pcommit st1 inst propName v) al with
          | .ok st3 evs2 => .ok (pclearGuard st3 propName) (evs1 ++ evs2)
          | .err st3 evs2 e2 => .err (pclearGuard st3 propName) (evs1 ++ evs2) e2 := by
    rw [pwrite_succ, hB, hA, hg]
  constructor
  · intro st1 evs e h
    have h2 := (ploop_before_phase fuel inst propName v al bl [] st hk
      (by simpa using hB) hA hg).2 st1 evs e h
    have hw : pwrite (fuel + 1) st inst propName v = .err (pclearGuard st1 propName) evs e := by
      rw [hstep, h]
    refine ⟨hw, ?_⟩
    rw [hw]
    show storeGet st1.store inst propName = storeGet st.store inst propName
    rw [h2]
  · intro st1 evs1 h hbl
    cases bl with
    | nil => exact absurd rfl hbl
    | cons h0 bl2 =>
      have h1 := (ploop_before_phase fuel inst propName v al (h0 :: bl2) [] st hk
        (by simpa using hB) hA hg).1 st1 evs1 h
      subst h1
      have hstep2 : pwrite (fuel + 1) st inst propName v
          = match ploop (fun s w => pwrite fuel s inst propName w) inst propName v
                (pcommit (psetGuard st propName ([] ++ h0 :: bl2)) inst propName v) al with
            | .ok st3 evs2 => .ok (pclearGuard st3 propName) (evs1 ++ evs2)
            | .err st3 evs2 e2 => .err (pclearGuard st3 propName) (evs1 ++ evs2) e2 := by
        rw [hstep, h]
      have hstoreAft := ploop_guarded_head_store fuel inst propName v h0 bl2 al al
        ([] ++ h0 :: bl2) (pcommit (psetGuard st propName ([] ++ h0 :: bl2)) inst propName v)
        (by exact hB) (by exact hA)
        (by
          show alGet (psetGuard st propName ([] ++ h0 :: bl2)).guards propName
            = some ([] ++ h0 :: bl2)
          exact alGet_psetGuard_self _ (by rw [hg]; rfl))
        (by simp)
      cases haft : ploop (fun s w => pwrite fuel s inst propName w) inst propName v
          (pcommit (psetGuard st propName ([] ++ h0 :: bl2)) inst propName v) al with
      | ok st3 evs2 =>
        have hred : preadProp (pwrite (fuel + 1) st inst propName v).state inst propName
            = storeGet st3.store inst propName := by
          rw [hstep2, haft]
          rfl
        rw [haft] at hstoreAft
        have h3 : st3.store
            = (pcommit (psetGuard st propName ([] ++ h0 :: bl2)) inst propName v).store := by
          simpa [PResult.state] using hstoreAft
        rw [hred, h3]
        exact preadProp_pcommit_self (psetGuard st propName ([] ++ h0 :: bl2)) inst propName v
      | err st3 evs2 e2 =>
        have hred : preadProp (pwrite (fuel + 1) st inst propName v).state inst propName
            = storeGet st3.store inst propName := by
          rw [hstep2, haft]
          rfl
        rw [haft] at hstoreAft
        have h3 : st3.store
            = (pcommit (psetGuard st propName ([] ++ h0 :: bl2)) inst propName v).store := by
          simpa [PResult.state] using hstoreAft
        rw [hred, h3]
        exact preadProp_pcommit_self (psetGuard st propName ([] ++ h0 :: bl2)) inst propName v

/-- Phase-aware state for the C8 witness: the assigning `obsB` is the
sole before-phase subscriber; `value` storage 0. -/
def c8bSt : PState :=
  ⟨"Test", [("value", [obsB])], [("value", [])], [("value", [])], [((0, "value"), 0)]⟩

/-- C8, witness for the amended theorem, on `c8bSt`: whichever way the
before-phase loop ends, a before-phase failure leaves the old value
readable and a clean before phase guarantees the committed value
survives an after-phase failure. -/
theorem C8_commit_vs_phase_witness :
    (∀ st1 evs e,
      ploop (fun s w => pwrite 2 s 0 "value" w) 0 "value" 1 c8bSt [obsB] = .err st1 evs e →
        pwrite 3 c8bSt 0 "value" 1 = .err (pclearGuard st1 "value") evs e
        ∧ preadProp (pwrite 3 c8bSt 0 "value" 1).state 0 "value"
            = preadProp c8bSt 0 "value")
    ∧ (∀ st1 evs1,
      ploop (fun s w => pwrite 2 s 0 "value" w) 0 "value" 1 c8bSt [obsB] = .ok st1 evs1 →
      [obsB] ≠ ([] : List Callback) →
      preadProp (pwrite 3 c8bSt 0 "value" 1).state 0 "value" = 1) :=
  C8_commit_vs_phase 2 c8bSt 0 "value" 1 [obsB] []
    (by decide) (by decide) (by decide) (by decide)

end ObservableProperties
